import Mathlib

/-!
# ConstVsNonConstInCPP: the benchmarked classes of `src/benchmark.cpp`

A shallow embedding of the three classes `ConstMemberTest`, `ConstReturnTest`,
`ConstTest` and of the three benchmark bodies, with the properties the
specification states about them.

* A `double` is its 64-bit IEEE-754 pattern (`Double`); the comparison `==`
  is defined on patterns (`Double.cmpEq`): NaN equals nothing, `+0.0 == -0.0`.
* `+`, `*`, `std::sin`, `std::cos` are not code of this repository: they are
  the fields of a parameter `Arith`, and every general theorem holds for every
  such arithmetic.  They are taken to be functions from binary64 to binary64:
  every intermediate value is a `double`, and equal arguments give equal
  results.  `ieee` is one executable arithmetic (round to nearest even `+` and
  `*`, `sin`/`cos` by their power series rounded once), used at the concrete
  inputs.
* A reference returned by an accessor is the location of the member; a value
  returned by copy is a new object at a new location (`Mem`, `Loc`).
-/

namespace Bench

/-! ## Doubles -/

/-- A binary64 value, given by its bit pattern (read modulo `2^64`):
bit 63 the sign, bits 52..62 the biased exponent, bits 0..51 the fraction. -/
structure Double where
  bits : Nat
  deriving DecidableEq, Repr

namespace Double

/-- Sign bit. -/
def sign (d : Double) : Nat := d.bits / 2 ^ 63 % 2

/-- Biased exponent field. -/
def expo (d : Double) : Nat := d.bits / 2 ^ 52 % 2048

/-- Fraction field. -/
def frac (d : Double) : Nat := d.bits % 2 ^ 52

/-- Not a number: exponent all ones, fraction non-zero. -/
def isNaN (d : Double) : Bool := d.expo == 2047 && d.frac != 0

/-- Plus or minus zero. -/
def isZero (d : Double) : Bool := d.expo == 0 && d.frac == 0

/-- The C++ comparison `a == b` on doubles: false when either side is NaN,
true for two zeros of any sign, otherwise equality of the patterns. -/
def cmpEq (a b : Double) : Bool :=
  !a.isNaN && !b.isNaN && ((a.isZero && b.isZero) || a.bits % 2 ^ 64 == b.bits % 2 ^ 64)

/-- The literal `0.0` (and the `int` literal `0` converted to `double`). -/
def zero : Double := ⟨0x0000000000000000⟩

/-- The value `-0.0`. -/
def negZero : Double := ⟨0x8000000000000000⟩

/-- The literal `3.14159`: the nearest binary64. -/
def lit_3_14159 : Double := ⟨0x400921F9F01B866E⟩

/-- The literal `2.71828`: the nearest binary64. -/
def lit_2_71828 : Double := ⟨0x4005BF0995AAF790⟩

/-- The literal `1.0`. -/
def lit_1 : Double := ⟨0x3FF0000000000000⟩

/-- The literal `2.0`. -/
def lit_2 : Double := ⟨0x4000000000000000⟩

/-- The literal `3.0`. -/
def lit_3 : Double := ⟨0x4008000000000000⟩

/-- The literal `4.0`. -/
def lit_4 : Double := ⟨0x4010000000000000⟩

/-- The literal `5.0`. -/
def lit_5 : Double := ⟨0x4014000000000000⟩

end Double

/-- The floating-point operations the program uses and does not define:
`+` and `*` on `double`, `std::sin`, `std::cos`.  They are functions of their
arguments (no rounding-mode or other hidden state). -/
structure Arith where
  add : Double → Double → Double
  mul : Double → Double → Double
  sin : Double → Double
  cos : Double → Double

/-! ## An executable arithmetic

Used only at concrete inputs; the general theorems quantify over every `Arith`. -/

namespace Ieee

/-- A quiet NaN. -/
def nan : Double := ⟨0x7FF8000000000000⟩

/-- Infinity of sign `s`. -/
def inf (s : Nat) : Double := ⟨s * 2 ^ 63 + 2047 * 2 ^ 52⟩

/-- Exponent all ones: infinity or NaN. -/
def isSpecial (d : Double) : Bool := d.expo == 2047

/-- Significand of a finite double: `|d| = sig d * 2 ^ (qexp d - 1075)`. -/
def sig (d : Double) : Nat := if d.expo = 0 then d.frac else 2 ^ 52 + d.frac

/-- Exponent of the last place of a finite double, offset by 1075. -/
def qexp (d : Double) : Nat := if d.expo = 0 then 1 else d.expo

/-- Position of the leading bit among the low `2 ^ k` bit positions of `m`, by bisection. -/
def log2Aux : Nat → Nat → Nat
  | 0, _ => 0
  | k + 1, m => if m ≥ 2 ^ 2 ^ k then 2 ^ k + log2Aux k (m / 2 ^ 2 ^ k) else log2Aux k m

/-- The integer part of the binary logarithm of `m`, for `0 < m < 2 ^ 2 ^ 20`. -/
def ilog2 (m : Nat) : Nat := log2Aux 20 m

/-- The double of sign `s` nearest to `m * 2 ^ e`, ties to even; infinity on overflow. -/
def round (s : Nat) (m : Nat) (e : Int) : Double :=
  if m = 0 then ⟨s * 2 ^ 63⟩
  else
    let q : Int := max ((ilog2 m : Int) + e - 52) (-1074)
    let mant : Nat :=
      if q ≤ e then m * 2 ^ (e - q).toNat
      else
        let k := (q - e).toNat
        let lo := m % 2 ^ k
        let hi := m / 2 ^ k
        if lo > 2 ^ (k - 1) ∨ (lo = 2 ^ (k - 1) ∧ hi % 2 = 1) then hi + 1 else hi
    let field := (q + 1074).toNat * 2 ^ 52 + mant
    if field ≥ 2047 * 2 ^ 52 then inf s else ⟨s * 2 ^ 63 + field⟩

/-- The double of sign `s` nearest to `n / d` (`d > 0`): the quotient to more than 64 bits,
with one more bit recording a non-zero remainder, then `round`. -/
def roundQuot (s : Nat) (n d : Nat) : Double :=
  let sh := 66 + ilog2 d - ilog2 n
  let t := n * 2 ^ sh
  round s (2 * (t / d) + (if t % d = 0 then 0 else 1)) (-(sh : Int) - 1)

/-- Addition, round to nearest even. -/
def add (a b : Double) : Double :=
  if a.isNaN || b.isNaN then nan
  else if isSpecial a then (if isSpecial b && a.sign != b.sign then nan else inf a.sign)
  else if isSpecial b then inf b.sign
  else
    let e := min (qexp a) (qexp b)
    let va : Int := (if a.sign = 1 then -1 else 1) * ((sig a * 2 ^ (qexp a - e) : Nat) : Int)
    let vb : Int := (if b.sign = 1 then -1 else 1) * ((sig b * 2 ^ (qexp b - e) : Nat) : Int)
    let v := va + vb
    if v = 0 then (if a.sign = 1 ∧ b.sign = 1 then ⟨2 ^ 63⟩ else ⟨0⟩)
    else round (if v < 0 then 1 else 0) v.natAbs ((e : Int) - 1075)

/-- Multiplication, round to nearest even. -/
def mul (a b : Double) : Double :=
  let s := (a.sign + b.sign) % 2
  if a.isNaN || b.isNaN then nan
  else if isSpecial a then (if b.isZero then nan else inf s)
  else if isSpecial b then (if a.isZero then nan else inf s)
  else round s (sig a * sig b) ((qexp a : Int) + (qexp b : Int) - 2150)

/-- Numerator over the denominator `b ^ 61 * 61!` of the first `K` terms of
`Σ (-1)^k x^(2k+j) / (2k+j)!` at `x = a / b`. -/
def seriesNum (a b j : Nat) : Nat → Int
  | 0 => 0
  | k + 1 =>
    seriesNum a b j k +
      (-1) ^ k * ((a ^ (2 * k + j) * b ^ (61 - (2 * k + j)) *
        (Nat.factorial 61 / Nat.factorial (2 * k + j)) : Nat) : Int)

/-- The polynomial above at a finite double, rounded once. -/
def series (x : Double) (j : Nat) (s : Nat) : Double :=
  let a := if qexp x ≥ 1075 then sig x * 2 ^ (qexp x - 1075) else sig x
  let b := if qexp x ≥ 1075 then 1 else 2 ^ (1075 - qexp x)
  let n := seriesNum a b j 31
  roundQuot (if n < 0 then 1 - s else s) n.natAbs (b ^ 61 * Nat.factorial 61)

/-- Sine: the odd series of degree 61, rounded once. -/
def sin (x : Double) : Double :=
  if isSpecial x then nan else series x 1 x.sign

/-- Cosine: the even series of degree 60, rounded once. -/
def cos (x : Double) : Double :=
  if isSpecial x then nan else series x 0 0

end Ieee

/-- An executable arithmetic: round-to-nearest-even `+` and `*`, and `sin`, `cos` by their
power series rounded once (accurate for arguments of small magnitude). -/
def ieee : Arith := { add := Ieee.add, mul := Ieee.mul, sin := Ieee.sin, cos := Ieee.cos }

/-! ## `ConstMemberTest` (benchmark.cpp, lines 8-32) -/

/-- Fields of `class ConstMemberTest`: `const double x_`, `const double y_`,
`mutable double cache_`. -/
structure ConstMemberTest where
  x_ : Double
  y_ : Double
  cache_ : Double
  deriving DecidableEq, Repr

/-- What one method call on a `ConstMemberTest` does: the `double` returned,
the object after the call, and how many times the body of
`heavyComputation` was executed during the call. -/
structure Outcome where
  value : Double
  self : ConstMemberTest
  runs : Nat
  deriving DecidableEq, Repr

namespace ConstMemberTest

/-- The constructor `ConstMemberTest() : x_(3.14159), y_(2.71828) {}` with the
default member initializer `cache_{0.0}`. -/
def init : ConstMemberTest :=
  { x_ := Double.lit_3_14159, y_ := Double.lit_2_71828, cache_ := Double.zero }

/-- The loop of `heavyComputation`,
`for (int i = 0; i < 100; ++i) result += std::sin(x_) * std::cos(y_);`
entered with counter `i` (it stays between 0 and 100) and accumulator `result`. -/
def heavyLoop (A : Arith) (self : ConstMemberTest) (i : Nat) (result : Double) : Double :=
  if i < 100 then
    heavyLoop A self (i + 1) (A.add result (A.mul (A.sin self.x_) (A.cos self.y_)))
  else
    result
termination_by 100 - i

/-- The method `double heavyComputation() const`: `double result = 0;`, the
loop, `return result;`.  It assigns no field. -/
def heavyComputation (A : Arith) (self : ConstMemberTest) : Outcome :=
  { value := heavyLoop A self 0 Double.zero, self := self, runs := 1 }

/-- The method `double heavyComputationCached() const`:
`if (cache_ == 0.0) { cache_ = heavyComputation(); } return cache_;`. -/
def heavyComputationCached (A : Arith) (self : ConstMemberTest) : Outcome :=
  if Double.cmpEq self.cache_ Double.zero then
    let r := heavyComputation A self
    { value := r.value, self := { r.self with cache_ := r.value }, runs := r.runs }
  else
    { value := self.cache_, self := self, runs := 0 }

end ConstMemberTest

/-- The two methods of `ConstMemberTest` a caller can invoke. -/
inductive Call where
  | heavyComputation
  | heavyComputationCached
  deriving DecidableEq, Repr

namespace ConstMemberTest

/-- One method call on the object. -/
def call (A : Arith) (self : ConstMemberTest) : Call → Outcome
  | Call.heavyComputation => heavyComputation A self
  | Call.heavyComputationCached => heavyComputationCached A self

/-- The outcomes of a sequence of calls made one after the other on the same object. -/
def outcomes (A : Arith) (self : ConstMemberTest) : List Call → List Outcome
  | [] => []
  | c :: cs => call A self c :: outcomes A (call A self c).self cs

/-- The object after a sequence of calls. -/
def run (A : Arith) (self : ConstMemberTest) : List Call → ConstMemberTest
  | [] => self
  | c :: cs => run A (call A self c).self cs

/-- The cache invariant: `cache_` is the initial `0.0` or the value `heavyComputation`
returns for this object. -/
def CacheInv (A : Arith) (self : ConstMemberTest) : Prop :=
  self.cache_ = Double.zero ∨ self.cache_ = (heavyComputation A self).value

end ConstMemberTest

/-- The accumulation the specification describes: starting from `start`, add `term`
once per step, `n` times, left to right. -/
def accumulate (A : Arith) (term : Double) (start : Double) : Nat → Double
  | 0 => start
  | n + 1 => A.add (accumulate A term start n) term

/-! ## `ConstTest` (benchmark.cpp, lines 67-87) -/

/-- Fields of `class ConstTest`: `double x_`, `double y_`. -/
structure ConstTest where
  x_ : Double
  y_ : Double
  deriving DecidableEq, Repr

namespace ConstTest

/-- The default member initializers `x_{3.14159}`, `y_{2.71828}`. -/
def init : ConstTest := { x_ := Double.lit_3_14159, y_ := Double.lit_2_71828 }

/-- The loop of the non-const overload (lines 74-76), entered with counter `i` and
accumulator `result`. -/
def heavyLoop (A : Arith) (self : ConstTest) (i : Nat) (result : Double) : Double :=
  if i < 100 then
    heavyLoop A self (i + 1) (A.add result (A.mul (A.sin self.x_) (A.cos self.y_)))
  else
    result
termination_by 100 - i

/-- The overload `double heavyComputation()` (lines 72-78), callable on a mutable object:
the value returned and the object after the call. -/
def heavyComputation (A : Arith) (self : ConstTest) : Double × ConstTest :=
  (heavyLoop A self 0 Double.zero, self)

/-- The loop of the const overload (lines 82-84). -/
def heavyLoop_const (A : Arith) (self : ConstTest) (i : Nat) (result : Double) : Double :=
  if i < 100 then
    heavyLoop_const A self (i + 1) (A.add result (A.mul (A.sin self.x_) (A.cos self.y_)))
  else
    result
termination_by 100 - i

/-- The overload `double heavyComputation() const` (lines 80-86), the one selected on a
read-only object: the value returned and the object after the call. -/
def heavyComputation_const (A : Arith) (self : ConstTest) : Double × ConstTest :=
  (heavyLoop_const A self 0 Double.zero, self)

end ConstTest

/-! ## `ConstReturnTest` (benchmark.cpp, lines 35-64) -/

/-- Fields of `class ConstReturnTest`: `std::vector<double> data_`, `std::string name_`. -/
structure ConstReturnTest where
  data_ : List Double
  name_ : String
  deriving DecidableEq, Repr

/-- An object an accessor's result designates: a vector of doubles or a string. -/
inductive Obj where
  | vector (v : List Double)
  | string (s : String)
  deriving DecidableEq, Repr

/-- Where the result of an accessor lives: a reference designates a member of the
`ConstReturnTest` itself, a by-value return designates a new object (a temporary or the
caller's variable), numbered in order of creation. -/
inductive Loc where
  | data_
  | name_
  | temp (n : Nat)
  deriving DecidableEq, Repr

/-- The memory an accessor call acts on: the `ConstReturnTest` and the objects created by
by-value returns so far. -/
structure Mem where
  test : ConstReturnTest
  temps : List Obj
  deriving DecidableEq, Repr

namespace Mem

/-- Read the object at a location. -/
def load (m : Mem) : Loc → Option Obj
  | Loc.data_ => some (Obj.vector m.test.data_)
  | Loc.name_ => some (Obj.string m.test.name_)
  | Loc.temp n => m.temps.get? n

/-- Write an object at a location; a write through a location of a member changes the
member. -/
def store (m : Mem) : Loc → Obj → Mem
  | Loc.data_, Obj.vector v => { m with test := { m.test with data_ := v } }
  | Loc.name_, Obj.string s => { m with test := { m.test with name_ := s } }
  | Loc.temp n, o => { m with temps := m.temps.set n o }
  | _, _ => m

/-- A modification of the object at a location: it is replaced by `f` of itself. -/
def modify (m : Mem) (l : Loc) (f : Obj → Obj) : Mem :=
  match m.load l with
  | some o => m.store l (f o)
  | none => m

/-- A by-value return: a new object initialised with a copy of `o`. -/
def copyOut (m : Mem) (o : Obj) : Loc × Mem :=
  (Loc.temp m.temps.length, { m with temps := m.temps ++ [o] })

end Mem

namespace ConstReturnTest

/-- The default member initializers `data_{1.0, 2.0, 3.0, 4.0, 5.0}`, `name_{"test"}`. -/
def init : ConstReturnTest :=
  { data_ := [Double.lit_1, Double.lit_2, Double.lit_3, Double.lit_4, Double.lit_5],
    name_ := "test" }

/-- The accessor `const std::vector<double>& getData() const { return data_; }`. -/
def getData (m : Mem) : Loc × Mem := (Loc.data_, m)

/-- The accessor `std::vector<double> getDataCopy() const { return data_; }`. -/
def getDataCopy (m : Mem) : Loc × Mem := m.copyOut (Obj.vector m.test.data_)

/-- The accessor `const std::vector<double> getDataConstCopy() const { return data_; }`. -/
def getDataConstCopy (m : Mem) : Loc × Mem := m.copyOut (Obj.vector m.test.data_)

/-- The accessor `const std::string& getName() const { return name_; }`. -/
def getName (m : Mem) : Loc × Mem := (Loc.name_, m)

/-- The accessor `std::string getNameCopy() const { return name_; }`. -/
def getNameCopy (m : Mem) : Loc × Mem := m.copyOut (Obj.string m.test.name_)

/-- What a caller observes of an accessor's result: the object it designates. -/
def observed (r : Loc × Mem) : Option Obj := r.2.load r.1

end ConstReturnTest

/-! ## The benchmark functions (benchmark.cpp, lines 90-162) -/

theorem accumulate_shift (A : Arith) (t r : Double) (n : Nat) :
    accumulate A t (A.add r t) n = A.add (accumulate A t r n) t := by
  induction n with
  | zero => rfl
  | succ n ih => simp only [accumulate, ih]

theorem cmpEq_zero_zero : Double.cmpEq Double.zero Double.zero = true := by decide

namespace ConstMemberTest

theorem heavyLoop_accumulate (A : Arith) (self : ConstMemberTest) (k : Nat) :
    ∀ (i : Nat) (r : Double), i + k = 100 →
      heavyLoop A self i r = accumulate A (A.mul (A.sin self.x_) (A.cos self.y_)) r k := by
  induction k with
  | zero =>
    intro i r h
    rw [heavyLoop, if_neg (by omega)]
    rfl
  | succ k ih =>
    intro i r h
    rw [heavyLoop, if_pos (by omega), ih (i + 1) _ (by omega), accumulate_shift]
    rfl

theorem heavyComputation_value (A : Arith) (self : ConstMemberTest) :
    (heavyComputation A self).value =
      accumulate A (A.mul (A.sin self.x_) (A.cos self.y_)) Double.zero 100 :=
  heavyLoop_accumulate A self 100 0 Double.zero rfl

theorem heavyComputation_value_congr (A : Arith) (s t : ConstMemberTest)
    (hx : s.x_ = t.x_) (hy : s.y_ = t.y_) :
    (heavyComputation A s).value = (heavyComputation A t).value := by
  rw [heavyComputation_value, heavyComputation_value, hx, hy]

theorem call_x (A : Arith) (s : ConstMemberTest) (c : Call) : (call A s c).self.x_ = s.x_ := by
  cases c
  · rfl
  · simp only [call, heavyComputationCached]
    split <;> rfl

theorem call_y (A : Arith) (s : ConstMemberTest) (c : Call) : (call A s c).self.y_ = s.y_ := by
  cases c
  · rfl
  · simp only [call, heavyComputationCached]
    split <;> rfl

theorem run_x (A : Arith) (cs : List Call) :
    ∀ s : ConstMemberTest, (run A s cs).x_ = s.x_ := by
  induction cs with
  | nil => intro s; rfl
  | cons c cs ih => intro s; rw [run, ih, call_x]

theorem run_y (A : Arith) (cs : List Call) :
    ∀ s : ConstMemberTest, (run A s cs).y_ = s.y_ := by
  induction cs with
  | nil => intro s; rfl
  | cons c cs ih => intro s; rw [run, ih, call_y]

theorem cacheInv_call (A : Arith) (s : ConstMemberTest) (c : Call) (h : CacheInv A s) :
    CacheInv A (call A s c).self := by
  cases c with
  | heavyComputation => exact h
  | heavyComputationCached =>
    simp only [call, heavyComputationCached]
    split
    · right
      exact heavyComputation_value_congr A _ _ rfl rfl
    · exact h

theorem cacheInv_run (A : Arith) (cs : List Call) :
    ∀ s : ConstMemberTest, CacheInv A s → CacheInv A (run A s cs) := by
  induction cs with
  | nil => intro s h; exact h
  | cons c cs ih => intro s h; exact ih _ (cacheInv_call A s c h)

theorem cached_value_of_inv (A : Arith) (s : ConstMemberTest) (h : CacheInv A s) :
    (heavyComputationCached A s).value = (heavyComputation A s).value := by
  simp only [heavyComputationCached]
  split
  · rfl
  · next hne =>
    rcases h with h | h
    · rw [h, cmpEq_zero_zero] at hne
      exact absurd rfl hne
    · exact h

end ConstMemberTest

namespace ConstMemberTest

theorem cached_values_of_inv (A : Arith) (n : Nat) :
    ∀ s : ConstMemberTest, CacheInv A s →
      (outcomes A s (List.replicate n Call.heavyComputationCached)).map Outcome.value =
        List.replicate n (heavyComputation A s).value := by
  induction n with
  | zero => intro s _; rfl
  | succ n ih =>
    intro s h
    have h1 := cacheInv_call A s Call.heavyComputationCached h
    have hx := call_x A s Call.heavyComputationCached
    have hy := call_y A s Call.heavyComputationCached
    simp only [List.replicate, outcomes, List.map, ih _ h1]
    rw [heavyComputation_value_congr A _ s hx hy]
    simp only [call, cached_value_of_inv A s h]

theorem cached_hit (A : Arith) (s : ConstMemberTest)
    (h : Double.cmpEq s.cache_ Double.zero = false) :
    heavyComputationCached A s = { value := s.cache_, self := s, runs := 0 } := by
  simp [heavyComputationCached, h]

theorem cached_hits (A : Arith) (s : ConstMemberTest)
    (h : Double.cmpEq s.cache_ Double.zero = false) (n : Nat) :
    outcomes A s (List.replicate n Call.heavyComputationCached) =
      List.replicate n { value := s.cache_, self := s, runs := 0 } := by
  induction n with
  | zero => rfl
  | succ n ih =>
    simp only [List.replicate, outcomes, call, cached_hit A s h, ih]

theorem cached_miss (A : Arith) (s : ConstMemberTest)
    (h : Double.cmpEq s.cache_ Double.zero = true) :
    heavyComputationCached A s =
      { value := (heavyComputation A s).value,
        self := { s with cache_ := (heavyComputation A s).value }, runs := 1 } := by
  simp [heavyComputationCached, h, heavyComputation]

theorem cached_misses (A : Arith) (n : Nat) :
    ∀ s : ConstMemberTest, Double.cmpEq s.cache_ Double.zero = true →
      Double.cmpEq (heavyComputation A s).value Double.zero = true →
      outcomes A s (List.replicate n Call.heavyComputationCached) =
        List.replicate n
          { value := (heavyComputation A s).value,
            self := { s with cache_ := (heavyComputation A s).value }, runs := 1 } := by
  induction n with
  | zero => intro s _ _; rfl
  | succ n ih =>
    intro s hc hv
    have hs : (heavyComputation A { s with cache_ := (heavyComputation A s).value }).value =
        (heavyComputation A s).value := heavyComputation_value_congr A _ _ rfl rfl
    simp only [List.replicate, outcomes, call, cached_miss A s hc]
    rw [ih _ hv (by rw [hs]; exact hv), hs]

end ConstMemberTest

/-- With the executable arithmetic the constructor's constants give
`-0.00024193658174254580`, which does not compare equal to `0.0`. -/
theorem ieee_heavyComputation_init :
    (ConstMemberTest.heavyComputation ieee ConstMemberTest.init).value =
      ⟨0xBF2FB60B699EE0AA⟩ := by
  rw [ConstMemberTest.heavyComputation_value]
  decide!

/-- With the executable arithmetic the constants `0.0`, `0.0` give `0.0`. -/
theorem ieee_heavyComputation_zero :
    (ConstMemberTest.heavyComputation ieee
      { x_ := Double.zero, y_ := Double.zero, cache_ := Double.zero }).value = Double.zero := by
  rw [ConstMemberTest.heavyComputation_value]
  decide!

theorem cmpEq_self (a : Double) : Double.cmpEq a a = !a.isNaN := by
  cases h : a.isNaN <;> simp [Double.cmpEq, h]

namespace ConstTest

theorem loop_accumulate (A : Arith) (self : ConstTest) (k : Nat) :
    ∀ (i : Nat) (r : Double), i + k = 100 →
      heavyLoop A self i r = accumulate A (A.mul (A.sin self.x_) (A.cos self.y_)) r k := by
  induction k with
  | zero =>
    intro i r h
    rw [heavyLoop, if_neg (by omega)]
    rfl
  | succ k ih =>
    intro i r h
    rw [heavyLoop, if_pos (by omega), ih (i + 1) _ (by omega), accumulate_shift]
    rfl

theorem loop_const_accumulate (A : Arith) (self : ConstTest) (k : Nat) :
    ∀ (i : Nat) (r : Double), i + k = 100 →
      heavyLoop_const A self i r =
        accumulate A (A.mul (A.sin self.x_) (A.cos self.y_)) r k := by
  induction k with
  | zero =>
    intro i r h
    rw [heavyLoop_const, if_neg (by omega)]
    rfl
  | succ k ih =>
    intro i r h
    rw [heavyLoop_const, if_pos (by omega), ih (i + 1) _ (by omega), accumulate_shift]
    rfl

end ConstTest

namespace Mem

theorem load_copyOut (m : Mem) (o : Obj) : (m.copyOut o).2.load (m.copyOut o).1 = some o := by
  simp [copyOut, load]

/-- A write through the location of a member is seen in the member: locations of members
alias the object, unlike those of copies. -/
theorem store_data_aliases (m : Mem) (v : List Double) :
    (m.store Loc.data_ (Obj.vector v)).test.data_ = v ∧
    (m.store Loc.data_ (Obj.vector v)).load Loc.data_ = some (Obj.vector v) :=
  ⟨rfl, rfl⟩

theorem modify_temp_test (m : Mem) (n : Nat) (f : Obj → Obj) :
    (m.modify (Loc.temp n) f).test = m.test := by
  unfold modify
  cases m.load (Loc.temp n) <;> rfl

theorem modifies_temp_test (n : Nat) (fs : List (Obj → Obj)) :
    ∀ m : Mem, (fs.foldl (fun m' f => m'.modify (Loc.temp n) f) m).test = m.test := by
  induction fs with
  | nil => intro m; rfl
  | cons f fs ih => intro m; rw [List.foldl, ih, modify_temp_test]

end Mem

/-- C1: on an object whose cache holds the initial `0.0`, whatever its two constants, each
of `n` consecutive calls of `heavyComputationCached` returns the value `heavyComputation`
returns for those constants; so each returns what the first call returned. -/
theorem cached_calls_return_heavyComputation (A : Arith) (x y : Double) (n : Nat) :
    (ConstMemberTest.outcomes A { x_ := x, y_ := y, cache_ := Double.zero }
        (List.replicate n Call.heavyComputationCached)).map Outcome.value =
      List.replicate n
        (ConstMemberTest.heavyComputation A { x_ := x, y_ := y, cache_ := Double.zero }).value ∧
    ∀ v ∈ (ConstMemberTest.outcomes A { x_ := x, y_ := y, cache_ := Double.zero }
        (List.replicate n Call.heavyComputationCached)).map Outcome.value,
      ((ConstMemberTest.outcomes A { x_ := x, y_ := y, cache_ := Double.zero }
        (List.replicate n Call.heavyComputationCached)).map Outcome.value).head? = some v := by
  have h := ConstMemberTest.cached_values_of_inv A n
    { x_ := x, y_ := y, cache_ := Double.zero } (Or.inl rfl)
  refine ⟨h, ?_⟩
  rw [h]
  intro v hv
  cases n with
  | zero => simp at hv
  | succ n =>
    rw [List.eq_of_mem_replicate hv]
    rfl

/-- C2: when the arithmetic evaluates `heavyComputation` at the constructor's constants
`3.14159`, `2.71828` to a value that does not compare equal to `0.0`, the first call of
`heavyComputationCached` on a freshly constructed object runs `heavyComputation` once,
stores its result in `cache_` and returns it, and each of any number of later calls runs
it zero times, returns the stored `cache_` and leaves the object as it is. -/
theorem fresh_cached_computes_once (A : Arith)
    (h : Double.cmpEq (ConstMemberTest.heavyComputation A ConstMemberTest.init).value
      Double.zero = false) :
    (ConstMemberTest.heavyComputationCached A ConstMemberTest.init).runs = 1 ∧
    (ConstMemberTest.heavyComputationCached A ConstMemberTest.init).self.cache_ =
      (ConstMemberTest.heavyComputation A ConstMemberTest.init).value ∧
    (ConstMemberTest.heavyComputationCached A ConstMemberTest.init).value =
      (ConstMemberTest.heavyComputation A ConstMemberTest.init).value ∧
    ∀ n : Nat, ∀ o ∈ ConstMemberTest.outcomes A
        (ConstMemberTest.heavyComputationCached A ConstMemberTest.init).self
        (List.replicate n Call.heavyComputationCached),
      o.runs = 0 ∧
      o.value = (ConstMemberTest.heavyComputationCached A ConstMemberTest.init).self.cache_ ∧
      o.self = (ConstMemberTest.heavyComputationCached A ConstMemberTest.init).self := by
  have h0 : Double.cmpEq ConstMemberTest.init.cache_ Double.zero = true := cmpEq_zero_zero
  rw [ConstMemberTest.cached_miss A _ h0]
  refine ⟨rfl, rfl, rfl, ?_⟩
  intro n o ho
  rw [ConstMemberTest.cached_hits A _ h n] at ho
  rw [List.eq_of_mem_replicate ho]
  exact ⟨rfl, rfl, rfl⟩

/-- Witness of C2 with the executable arithmetic: the constructor's constants give
`-0.00024193658174254580` (pattern `0xBF2FB60B699EE0AA`), the first call computes and stores
it, and every later call returns it without running `heavyComputation`. -/
theorem fresh_cached_computes_once_witness :
    Double.cmpEq (ConstMemberTest.heavyComputation ieee ConstMemberTest.init).value
      Double.zero = false ∧
    (ConstMemberTest.heavyComputationCached ieee ConstMemberTest.init).runs = 1 ∧
    (ConstMemberTest.heavyComputationCached ieee ConstMemberTest.init).self.cache_ =
      ⟨0xBF2FB60B699EE0AA⟩ ∧
    (ConstMemberTest.heavyComputationCached ieee ConstMemberTest.init).value =
      ⟨0xBF2FB60B699EE0AA⟩ ∧
    ∀ n : Nat, ∀ o ∈ ConstMemberTest.outcomes ieee
        (ConstMemberTest.heavyComputationCached ieee ConstMemberTest.init).self
        (List.replicate n Call.heavyComputationCached),
      o.runs = 0 ∧ o.value = ⟨0xBF2FB60B699EE0AA⟩ ∧
      o.self = (ConstMemberTest.heavyComputationCached ieee ConstMemberTest.init).self := by
  have h : Double.cmpEq (ConstMemberTest.heavyComputation ieee ConstMemberTest.init).value
      Double.zero = false := by
    rw [ieee_heavyComputation_init]
    decide
  have t := fresh_cached_computes_once ieee h
  rw [ieee_heavyComputation_init] at t
  refine ⟨h, t.1, t.2.1, t.2.2.1, ?_⟩
  intro n o ho
  have u := t.2.2.2 n o ho
  exact ⟨u.1, u.2.1.trans t.2.1, u.2.2⟩

/-- C3: for constants at which `heavyComputation` evaluates to a value that compares equal
to `0.0`, in every state reached from the initial one each of `n` consecutive calls of
`heavyComputationCached` runs `heavyComputation` once more, returns its result, and leaves
`cache_` comparing equal to `0.0`. -/
theorem sentinel_result_recomputes (A : Arith) (x y : Double)
    (h : Double.cmpEq
      (ConstMemberTest.heavyComputation A { x_ := x, y_ := y, cache_ := Double.zero }).value
      Double.zero = true)
    (cs : List Call) (n : Nat) :
    (ConstMemberTest.outcomes A
      (ConstMemberTest.run A { x_ := x, y_ := y, cache_ := Double.zero } cs)
      (List.replicate n Call.heavyComputationCached)).length = n ∧
    ∀ o ∈ ConstMemberTest.outcomes A
        (ConstMemberTest.run A { x_ := x, y_ := y, cache_ := Double.zero } cs)
        (List.replicate n Call.heavyComputationCached),
      o.runs = 1 ∧
      o.value = (ConstMemberTest.heavyComputation A
        { x_ := x, y_ := y, cache_ := Double.zero }).value ∧
      Double.cmpEq o.self.cache_ Double.zero = true := by
  have hinv := ConstMemberTest.cacheInv_run A cs
    { x_ := x, y_ := y, cache_ := Double.zero } (Or.inl rfl)
  have hv := ConstMemberTest.heavyComputation_value_congr A
    (ConstMemberTest.run A { x_ := x, y_ := y, cache_ := Double.zero } cs)
    { x_ := x, y_ := y, cache_ := Double.zero }
    (ConstMemberTest.run_x A cs _) (ConstMemberTest.run_y A cs _)
  have hc : Double.cmpEq
      (ConstMemberTest.run A { x_ := x, y_ := y, cache_ := Double.zero } cs).cache_
      Double.zero = true := by
    rcases hinv with h1 | h1
    · rw [h1]; exact cmpEq_zero_zero
    · rw [h1, hv]; exact h
  rw [ConstMemberTest.cached_misses A n _ hc (by rw [hv]; exact h)]
  refine ⟨List.length_replicate _ _, ?_⟩
  intro o ho
  rw [List.eq_of_mem_replicate ho]
  exact ⟨rfl, hv, by rw [hv]; exact h⟩

/-- Witness of C3 with the executable arithmetic: at the constants `0.0`, `0.0` the
computation gives `0.0`, and each cached call after two earlier calls recomputes. -/
theorem sentinel_result_recomputes_witness :
    Double.cmpEq
      (ConstMemberTest.heavyComputation ieee
        { x_ := Double.zero, y_ := Double.zero, cache_ := Double.zero }).value
      Double.zero = true ∧
    ∀ o ∈ ConstMemberTest.outcomes ieee
        (ConstMemberTest.run ieee
          { x_ := Double.zero, y_ := Double.zero, cache_ := Double.zero }
          [Call.heavyComputation, Call.heavyComputationCached])
        (List.replicate 3 Call.heavyComputationCached),
      o.runs = 1 ∧ o.value = Double.zero ∧ Double.cmpEq o.self.cache_ Double.zero = true := by
  have h : Double.cmpEq
      (ConstMemberTest.heavyComputation ieee
        { x_ := Double.zero, y_ := Double.zero, cache_ := Double.zero }).value
      Double.zero = true := by
    rw [ieee_heavyComputation_zero]
    decide
  have t := sentinel_result_recomputes ieee Double.zero Double.zero h
    [Call.heavyComputation, Call.heavyComputationCached] 3
  rw [ieee_heavyComputation_zero] at t
  exact ⟨h, t.2⟩

/-- C4: the cache invariant (`cache_` is `0.0` or the value `heavyComputation` returns for
the object's constants) is preserved by `heavyComputation` and by `heavyComputationCached`,
and holds in every state reached from construction by any sequence of the two calls, the
constants `x_` and `y_` staying what they were. -/
theorem cache_invariant (A : Arith) :
    (∀ (s : ConstMemberTest) (c : Call),
      ConstMemberTest.CacheInv A s → ConstMemberTest.CacheInv A (ConstMemberTest.call A s c).self) ∧
    (∀ cs : List Call,
      ConstMemberTest.CacheInv A (ConstMemberTest.run A ConstMemberTest.init cs)) ∧
    (∀ (x y : Double) (cs : List Call),
      ConstMemberTest.CacheInv A
        (ConstMemberTest.run A { x_ := x, y_ := y, cache_ := Double.zero } cs) ∧
      (ConstMemberTest.run A { x_ := x, y_ := y, cache_ := Double.zero } cs).x_ = x ∧
      (ConstMemberTest.run A { x_ := x, y_ := y, cache_ := Double.zero } cs).y_ = y) :=
  ⟨fun s c h => ConstMemberTest.cacheInv_call A s c h,
   fun cs => ConstMemberTest.cacheInv_run A cs _ (Or.inl rfl),
   fun _ _ cs => ⟨ConstMemberTest.cacheInv_run A cs _ (Or.inl rfl),
     ConstMemberTest.run_x A cs _, ConstMemberTest.run_y A cs _⟩⟩

/-- C5: `heavyComputation` returns the sum accumulated by exactly 100 steps that start from
`0` and each add the product `sin(x_) * cos(y_)`, left to right, for every pair of
constants. -/
theorem heavyComputation_is_accumulation (A : Arith) (self : ConstMemberTest) :
    (ConstMemberTest.heavyComputation A self).value =
      accumulate A (A.mul (A.sin self.x_) (A.cos self.y_)) Double.zero 100 ∧
    (ConstMemberTest.heavyComputation A self).value =
      (List.replicate 100 (A.mul (A.sin self.x_) (A.cos self.y_))).foldl A.add Double.zero := by
  refine ⟨ConstMemberTest.heavyComputation_value A self, ?_⟩
  rw [ConstMemberTest.heavyComputation_value]
  generalize A.mul (A.sin self.x_) (A.cos self.y_) = t
  have key : ∀ (n : Nat) (r : Double),
      accumulate A t r n = (List.replicate n t).foldl A.add r := by
    intro n
    induction n with
    | zero => intro r; rfl
    | succ n ih =>
      intro r
      rw [List.replicate, List.foldl, ← ih, accumulate_shift]
      rfl
  exact key 100 Double.zero

/-- C6: on two objects with equal `x_` and equal `y_`, whatever their `cache_` and whatever
calls were made on each before, `heavyComputation` returns the same value; and a call of
`heavyComputation` leaves the object, `cache_` included, unchanged. -/
theorem heavyComputation_deterministic (A : Arith) (s t : ConstMemberTest)
    (hx : s.x_ = t.x_) (hy : s.y_ = t.y_) (cs ds : List Call) :
    (ConstMemberTest.heavyComputation A (ConstMemberTest.run A s cs)).value =
      (ConstMemberTest.heavyComputation A (ConstMemberTest.run A t ds)).value ∧
    (ConstMemberTest.heavyComputation A (ConstMemberTest.run A s cs)).self =
      ConstMemberTest.run A s cs ∧
    (ConstMemberTest.heavyComputation A (ConstMemberTest.run A t ds)).self =
      ConstMemberTest.run A t ds := by
  refine ⟨?_, rfl, rfl⟩
  apply ConstMemberTest.heavyComputation_value_congr
  · rw [ConstMemberTest.run_x, ConstMemberTest.run_x, hx]
  · rw [ConstMemberTest.run_y, ConstMemberTest.run_y, hy]

/-- Witness of C6 with the executable arithmetic: the constructed object after one cached
call, and an object with the same constants, another `cache_` and two earlier calls. -/
theorem heavyComputation_deterministic_witness :
    ConstMemberTest.init.x_ = { ConstMemberTest.init with cache_ := Double.lit_5 }.x_ ∧
    ConstMemberTest.init.y_ = { ConstMemberTest.init with cache_ := Double.lit_5 }.y_ ∧
    (ConstMemberTest.heavyComputation ieee
      (ConstMemberTest.run ieee ConstMemberTest.init [Call.heavyComputationCached])).value =
    (ConstMemberTest.heavyComputation ieee
      (ConstMemberTest.run ieee { ConstMemberTest.init with cache_ := Double.lit_5 }
        [Call.heavyComputation, Call.heavyComputationCached])).value :=
  ⟨rfl, rfl, (heavyComputation_deterministic ieee ConstMemberTest.init
    { ConstMemberTest.init with cache_ := Double.lit_5 } rfl rfl
    [Call.heavyComputationCached] [Call.heavyComputation, Call.heavyComputationCached]).1⟩

/-! ## The claims about `ConstTest`, `ConstReturnTest` and the benchmark functions -/

/-- C7: for every pair of constants the non-const overload of `ConstTest::heavyComputation`
(on a mutable object) and the const overload (on a read-only object with the same
constants) return the same value, which therefore compares equal under `==` unless it is
NaN, and neither changes the object's fields. -/
theorem const_overloads_agree (A : Arith) (x y : Double) :
    (ConstTest.heavyComputation A { x_ := x, y_ := y }).1 =
      (ConstTest.heavyComputation_const A { x_ := x, y_ := y }).1 ∧
    Double.cmpEq (ConstTest.heavyComputation A { x_ := x, y_ := y }).1
      (ConstTest.heavyComputation_const A { x_ := x, y_ := y }).1 =
      !(ConstTest.heavyComputation A { x_ := x, y_ := y }).1.isNaN ∧
    (ConstTest.heavyComputation A { x_ := x, y_ := y }).2 = { x_ := x, y_ := y } ∧
    (ConstTest.heavyComputation_const A { x_ := x, y_ := y }).2 = { x_ := x, y_ := y } := by
  have h : (ConstTest.heavyComputation A { x_ := x, y_ := y }).1 =
      (ConstTest.heavyComputation_const A { x_ := x, y_ := y }).1 := by
    simp only [ConstTest.heavyComputation, ConstTest.heavyComputation_const]
    rw [ConstTest.loop_accumulate A _ 100 0 _ rfl, ConstTest.loop_const_accumulate A _ 100 0 _ rfl]
  refine ⟨h, ?_, rfl, rfl⟩
  rw [← h, cmpEq_self]

/-- C8: on a constructed `ConstReturnTest`, whatever other objects exist, the results of
`getData`, `getDataCopy` and `getDataConstCopy` designate the sequence
`1.0, 2.0, 3.0, 4.0, 5.0` (five elements, in this order, each comparing equal under `==`),
those of `getName` and `getNameCopy` the string `"test"`; and in every state the
reference-returning and the copy-returning accessors of a field observe equal objects. -/
theorem accessors_observe_fields (temps : List Obj) :
    ConstReturnTest.observed
        (ConstReturnTest.getData { test := ConstReturnTest.init, temps := temps }) =
      some (Obj.vector [Double.lit_1, Double.lit_2, Double.lit_3, Double.lit_4, Double.lit_5]) ∧
    ConstReturnTest.observed
        (ConstReturnTest.getDataCopy { test := ConstReturnTest.init, temps := temps }) =
      some (Obj.vector [Double.lit_1, Double.lit_2, Double.lit_3, Double.lit_4, Double.lit_5]) ∧
    ConstReturnTest.observed
        (ConstReturnTest.getDataConstCopy { test := ConstReturnTest.init, temps := temps }) =
      some (Obj.vector [Double.lit_1, Double.lit_2, Double.lit_3, Double.lit_4, Double.lit_5]) ∧
    ConstReturnTest.observed
        (ConstReturnTest.getName { test := ConstReturnTest.init, temps := temps }) =
      some (Obj.string "test") ∧
    ConstReturnTest.observed
        (ConstReturnTest.getNameCopy { test := ConstReturnTest.init, temps := temps }) =
      some (Obj.string "test") ∧
    List.zipWith Double.cmpEq ConstReturnTest.init.data_
        [Double.lit_1, Double.lit_2, Double.lit_3, Double.lit_4, Double.lit_5] =
      [true, true, true, true, true] ∧
    ∀ m : Mem,
      ConstReturnTest.observed (ConstReturnTest.getDataCopy m) =
        ConstReturnTest.observed (ConstReturnTest.getData m) ∧
      ConstReturnTest.observed (ConstReturnTest.getDataConstCopy m) =
        ConstReturnTest.observed (ConstReturnTest.getData m) ∧
      ConstReturnTest.observed (ConstReturnTest.getNameCopy m) =
        ConstReturnTest.observed (ConstReturnTest.getName m) := by
  refine ⟨rfl, Mem.load_copyOut _ _, Mem.load_copyOut _ _, rfl, Mem.load_copyOut _ _,
    by decide, ?_⟩
  intro m
  exact ⟨Mem.load_copyOut _ _, Mem.load_copyOut _ _, Mem.load_copyOut _ _⟩

/-- C9: after any sequence of modifications of the object `getDataCopy` returned, `getData`
on the same instance observes what it observed before, and likewise `getName` after
modifications of the object `getNameCopy` returned; the modifications leave both members
as they were, and none of the five accessors changes `data_` or `name_`. -/
theorem copy_independence (m : Mem) (fs : List (Obj → Obj)) :
    ConstReturnTest.observed (ConstReturnTest.getData
        (fs.foldl (fun m' f => m'.modify (ConstReturnTest.getDataCopy m).1 f)
          (ConstReturnTest.getDataCopy m).2)) =
      ConstReturnTest.observed (ConstReturnTest.getData m) ∧
    ConstReturnTest.observed (ConstReturnTest.getName
        (fs.foldl (fun m' f => m'.modify (ConstReturnTest.getNameCopy m).1 f)
          (ConstReturnTest.getNameCopy m).2)) =
      ConstReturnTest.observed (ConstReturnTest.getName m) ∧
    (fs.foldl (fun m' f => m'.modify (ConstReturnTest.getDataCopy m).1 f)
        (ConstReturnTest.getDataCopy m).2).test = m.test ∧
    (fs.foldl (fun m' f => m'.modify (ConstReturnTest.getNameCopy m).1 f)
        (ConstReturnTest.getNameCopy m).2).test = m.test ∧
    (ConstReturnTest.getData m).2.test = m.test ∧
    (ConstReturnTest.getDataCopy m).2.test = m.test ∧
    (ConstReturnTest.getDataConstCopy m).2.test = m.test ∧
    (ConstReturnTest.getName m).2.test = m.test ∧
    (ConstReturnTest.getNameCopy m).2.test = m.test := by
  have hd : (fs.foldl (fun m' f => m'.modify (ConstReturnTest.getDataCopy m).1 f)
      (ConstReturnTest.getDataCopy m).2).test = m.test :=
    Mem.modifies_temp_test m.temps.length fs _
  have hn : (fs.foldl (fun m' f => m'.modify (ConstReturnTest.getNameCopy m).1 f)
      (ConstReturnTest.getNameCopy m).2).test = m.test :=
    Mem.modifies_temp_test m.temps.length fs _
  refine ⟨?_, ?_, hd, hn, rfl, rfl, rfl, rfl, rfl⟩
  · simp only [ConstReturnTest.observed, ConstReturnTest.getData, Mem.load, hd]
  · simp only [ConstReturnTest.observed, ConstReturnTest.getName, Mem.load, hn]

end Bench
